import Mathlib

/-!
Shallow embedding of the repository sources:
  - the theme store (`src/unnamed/part_000`),
  - the class-name joiner (`src/src/utils/class.util.ts`),
  - the runtime type guards (`src/unnamed/part_001`).

The theme store wraps a `svelte/store` writable value. The writable
primitive itself is a dependency whose code is not part of this
repository, so it is modelled from the specification text (see the
`Modelled from the spec:` doc comments below); everything else is
translated directly from the source files.
-/

/-- The `Theme` enum of the source: exactly two members, with the string
values "light" and "dark". -/
inductive Theme where
  | LIGHT
  | DARK
deriving DecidableEq, Repr

/-- The string value carried by a `Theme` enum member (TS string enums
compare equal to their string values). -/
def Theme.toStr : Theme → String
  | .LIGHT => "light"
  | .DARK => "dark"

/-- `DOMTokenList.contains` on the document root class list, modelled as an
ordered list of tokens. -/
def classListContains (cl : List String) (c : String) : Bool :=
  cl.contains c

/-- `DOMTokenList.add`: appends the token unless it is already present. -/
def classListAdd (cl : List String) (c : String) : List String :=
  if cl.contains c then cl else cl ++ [c]

/-- `DOMTokenList.remove`: removes every occurrence of the token. -/
def classListRemove (cl : List String) (c : String) : List String :=
  cl.filter (fun t => t ≠ c)

/-- `updateClass` from the store source: if the new theme compares equal to
"dark", add the dark class when absent; otherwise remove it when present. -/
def updateClass (cl : List String) (theme : Theme) : List String :=
  if theme.toStr = "dark" then
    if ¬ (classListContains cl Theme.DARK.toStr = true) then classListAdd cl Theme.DARK.toStr
    else cl
  else
    if classListContains cl Theme.DARK.toStr = true then classListRemove cl Theme.DARK.toStr
    else cl

/-- Combined observable state: the document root class list, and the
underlying writable store — its current value, the ids of the active
subscribers in registration order, the next fresh subscriber id, and the
chronological log of callback invocations as pairs of subscriber id and
delivered value. -/
structure StoreState where
  dom : List String
  current : Theme
  subs : List Nat
  nextId : Nat
  log : List (Nat × Theme)
deriving DecidableEq, Repr

/-- Modelled from the spec: `set` of the underlying svelte writable store
(not in this repository) assigns the new value and synchronously invokes
every registered subscriber with it; each invocation is appended to the
log in subscriber registration order. -/
def writableSet (s : StoreState) (v : Theme) : StoreState :=
  { s with current := v, log := s.log ++ s.subs.map (fun i => (i, v)) }

/-- Modelled from the spec: `update` of the underlying writable store
computes the new value from the current one and then applies it exactly
like `set`. -/
def writableUpdate (s : StoreState) (f : Theme → Theme) : StoreState :=
  writableSet s (f s.current)

/-- Modelled from the spec: `subscribe` of the underlying writable store
registers a fresh subscriber and immediately invokes it once with the
current value; it returns the new subscriber id (used by unsubscribe). -/
def writableSubscribe (s : StoreState) : Nat × StoreState :=
  (s.nextId,
   { s with
      subs := s.subs ++ [s.nextId]
      nextId := s.nextId + 1
      log := s.log ++ [(s.nextId, s.current)] })

/-- Modelled from the spec: the unsubscribe function returned by
`subscribe` removes that subscriber from the active set; it never removes
past log entries. -/
def writableUnsubscribe (s : StoreState) (id : Nat) : StoreState :=
  { s with subs := s.subs.filter (fun j => j ≠ id) }

/-- `set` of the theme store: first `updateClass(newTheme)` mutates the
document class list, then the writable store is set (which notifies). -/
def ThemeStore.set (s : StoreState) (newTheme : Theme) : StoreState :=
  writableSet { s with dom := updateClass s.dom newTheme } newTheme

/-- `update` of the theme store: inside the writable update callback the
new theme is computed from the current one, `updateClass` runs on it, and
only then does the writable store assign the value and notify. -/
def ThemeStore.update (s : StoreState) (updater : Theme → Theme) : StoreState :=
  writableSet { s with dom := updateClass s.dom (updater s.current) } (updater s.current)

/-- The updater used by `toggle` in the source:
`theme === Theme.DARK ? Theme.LIGHT : Theme.DARK`. -/
def toggleFn (theme : Theme) : Theme :=
  if theme = Theme.DARK then Theme.LIGHT else Theme.DARK

/-- `toggle` of the theme store. -/
def ThemeStore.toggle (s : StoreState) : StoreState :=
  ThemeStore.update s toggleFn

/-- `createThemeStore`: the writable store starts at DARK exactly when the
document root class list contains the dark class, with no subscribers and
no invocations performed; the class list itself is left untouched. -/
def createThemeStore (dom : List String) : StoreState :=
  { dom := dom
    current := if classListContains dom Theme.DARK.toStr then Theme.DARK else Theme.LIGHT
    subs := []
    nextId := 0
    log := [] }

/-- The external dark marker: presence of the dark class on the root. -/
def markerPresent (s : StoreState) : Bool :=
  classListContains s.dom Theme.DARK.toStr

/-- One mutating call on the public surface of the theme store. -/
inductive ThemeOp where
  | set (t : Theme)
  | update (f : Theme → Theme)
  | toggle

/-- Run one theme store call. -/
def applyThemeOp (s : StoreState) : ThemeOp → StoreState
  | .set t => ThemeStore.set s t
  | .update f => ThemeStore.update s f
  | .toggle => ThemeStore.toggle s

/-- Run a sequence of theme store calls, oldest first. -/
def applyThemeOps (s : StoreState) (ops : List ThemeOp) : StoreState :=
  ops.foldl applyThemeOp s

/-- The theme value that a given call applies (argument of `set`, updater
result for `update`, flipped current theme for `toggle`). -/
def opTheme (s : StoreState) : ThemeOp → Theme
  | .set t => t
  | .update f => f s.current
  | .toggle => toggleFn s.current

lemma contains_updateClass (cl : List String) (t : Theme) :
    classListContains (updateClass cl t) Theme.DARK.toStr = decide (t = Theme.DARK) := by
  cases t <;>
    simp only [updateClass, classListContains, classListAdd, classListRemove, Theme.toStr] <;>
    by_cases h : cl.contains "dark" <;>
    simp_all [List.mem_filter]

lemma applyThemeOp_marker (s : StoreState) (op : ThemeOp) :
    markerPresent (applyThemeOp s op) = decide ((applyThemeOp s op).current = Theme.DARK) := by
  cases op <;>
    simp [applyThemeOp, ThemeStore.set, ThemeStore.update, ThemeStore.toggle, writableSet,
      markerPresent, contains_updateClass]

lemma applyThemeOps_marker_aux :
    ∀ (ops : List ThemeOp) (s : StoreState) (op : ThemeOp),
      markerPresent (applyThemeOps (applyThemeOp s op) ops) =
        decide ((applyThemeOps (applyThemeOp s op) ops).current = Theme.DARK) := by
  intro ops
  induction ops with
  | nil => intro s op; exact applyThemeOp_marker s op
  | cons op2 rest ih =>
    intro s op
    exact ih (applyThemeOp s op) op2

/-- Claim C1: for every sequence of `set`, `update` and `toggle` calls
starting from any state, after each call the dark class is present on the
document root exactly when the current theme is DARK. -/
theorem theme_marker_current_sync (s : StoreState) (ops : List ThemeOp) (hne : ops ≠ []) :
    markerPresent (applyThemeOps s ops) =
      decide ((applyThemeOps s ops).current = Theme.DARK) := by
  cases ops with
  | nil => exact absurd rfl hne
  | cons op rest => exact applyThemeOps_marker_aux rest s op

theorem theme_marker_current_sync_witness :
    ([ThemeOp.toggle] ≠ ([] : List ThemeOp)) ∧
      markerPresent (applyThemeOps (createThemeStore []) [ThemeOp.toggle]) =
        decide ((applyThemeOps (createThemeStore []) [ThemeOp.toggle]).current = Theme.DARK) :=
  ⟨fun h => List.noConfusion h,
   theme_marker_current_sync (createThemeStore []) [ThemeOp.toggle] (fun h => List.noConfusion h)⟩

/-- Claim C2: construction reads the dark-class marker once: the initial
current theme is DARK exactly when the marker is present and LIGHT exactly
when it is absent; the class list is left untouched and no subscriber
exists or is invoked. -/
theorem createThemeStore_spec (dom : List String) :
    ((createThemeStore dom).current = Theme.DARK ↔
        classListContains dom Theme.DARK.toStr = true)
    ∧ ((createThemeStore dom).current = Theme.LIGHT ↔
        classListContains dom Theme.DARK.toStr = false)
    ∧ (createThemeStore dom).dom = dom
    ∧ (createThemeStore dom).subs = []
    ∧ (createThemeStore dom).log = [] := by
  by_cases h : classListContains dom Theme.DARK.toStr = true <;>
    simp [createThemeStore, h]

/-- Claim C3: calling `toggle` twice returns the store to its starting
theme state: the flip applied by `toggle` is an involution on the
two-valued theme. -/
theorem toggle_involution_current (s : StoreState) :
    (ThemeStore.toggle (ThemeStore.toggle s)).current = s.current := by
  cases h : s.current <;>
    simp [ThemeStore.toggle, ThemeStore.update, writableSet, toggleFn, h]

/-- Modelled from the spec words: the updater
`theme => theme == Dark ? Light : Dark`, written as the function mapping
DARK to LIGHT and LIGHT to DARK. -/
def specToggleUpdater : Theme → Theme
  | .DARK => .LIGHT
  | .LIGHT => .DARK

/-- Claim C4: `toggle` is observably equivalent to `update` applied to the
function mapping DARK to LIGHT and LIGHT to DARK: the whole resulting
states coincide — current theme, class list (marker) and invocation log
(subscriber notifications). -/
theorem toggle_equiv_update (s : StoreState) :
    ThemeStore.toggle s = ThemeStore.update s specToggleUpdater := by
  have h : toggleFn s.current = specToggleUpdater s.current := by
    cases s.current <;> rfl
  simp [ThemeStore.toggle, ThemeStore.update, h]

/-- Claim C5: `set(newTheme)` adds the dark class exactly when the new
theme is DARK and the class is absent, removes it exactly when the new
theme is LIGHT and the class is present, and otherwise leaves the class
list unchanged; afterwards the current theme equals the new theme and
every subscriber is notified with it. -/
theorem set_spec (s : StoreState) (newTheme : Theme) :
    (ThemeStore.set s newTheme).current = newTheme
    ∧ (ThemeStore.set s newTheme).log = s.log ++ s.subs.map (fun i => (i, newTheme))
    ∧ (ThemeStore.set s newTheme).subs = s.subs
    ∧ (ThemeStore.set s newTheme).dom =
        (if newTheme = Theme.DARK then
          (if classListContains s.dom Theme.DARK.toStr = true then s.dom
           else classListAdd s.dom Theme.DARK.toStr)
         else
          (if classListContains s.dom Theme.DARK.toStr = true then
            classListRemove s.dom Theme.DARK.toStr
           else s.dom)) := by
  refine ⟨rfl, rfl, rfl, ?_⟩
  cases newTheme <;>
    by_cases h : classListContains s.dom Theme.DARK.toStr = true <;>
    simp_all [ThemeStore.set, writableSet, updateClass, Theme.toStr, classListContains]

/-- The marker-synchronization phase shared by every mutating call: only
the document class list changes in this phase. -/
def syncMarker (s : StoreState) (t : Theme) : StoreState :=
  { s with dom := updateClass s.dom t }

/-- Claim C6: every mutating call factors as the marker-synchronization
phase followed by the writable-store phase; after the first phase the
marker already matches the theme being applied while the current value and
the invocation log are untouched, and the second phase (value assignment
plus notification) never changes the class list, so every notified
subscriber observes the already-updated marker together with the new
current theme. -/
theorem marker_sync_before_notify (s : StoreState) (op : ThemeOp) :
    applyThemeOp s op = writableSet (syncMarker s (opTheme s op)) (opTheme s op)
    ∧ markerPresent (syncMarker s (opTheme s op)) = decide (opTheme s op = Theme.DARK)
    ∧ (syncMarker s (opTheme s op)).current = s.current
    ∧ (syncMarker s (opTheme s op)).log = s.log
    ∧ (writableSet (syncMarker s (opTheme s op)) (opTheme s op)).dom =
        (syncMarker s (opTheme s op)).dom
    ∧ markerPresent (applyThemeOp s op) = decide ((applyThemeOp s op).current = Theme.DARK) := by
  refine ⟨?_, ?_, rfl, rfl, rfl, applyThemeOp_marker s op⟩
  · cases op <;> rfl
  · simp [syncMarker, markerPresent, contains_updateClass]

/-- One event on the full public surface, including subscription churn. -/
inductive StoreEv where
  | set (t : Theme)
  | update (f : Theme → Theme)
  | toggle
  | subscribe
  | unsubscribe (id : Nat)

/-- Run one public event. -/
def applyStoreEv (s : StoreState) : StoreEv → StoreState
  | .set t => ThemeStore.set s t
  | .update f => ThemeStore.update s f
  | .toggle => ThemeStore.toggle s
  | .subscribe => (writableSubscribe s).2
  | .unsubscribe id => writableUnsubscribe s id

/-- Run a sequence of public events, oldest first. -/
def applyStoreEvs (s : StoreState) (evs : List StoreEv) : StoreState :=
  evs.foldl applyStoreEv s

lemma writableSet_log_mem (s : StoreState) (v : Theme) :
    ∀ y ∈ (writableSet s v).log, y ∈ s.log ∨ y.1 ∈ s.subs := by
  intro y hy
  simp [writableSet] at hy
  rcases hy with h | ⟨i, hi, rfl⟩
  · exact Or.inl h
  · exact Or.inr hi

lemma applyStoreEv_no_id (s : StoreState) (ev : StoreEv) (id : Nat)
    (hsubs : ∀ i ∈ s.subs, i ≠ id) (hlt : id < s.nextId) :
    (∀ i ∈ (applyStoreEv s ev).subs, i ≠ id)
    ∧ id < (applyStoreEv s ev).nextId
    ∧ (∀ y ∈ (applyStoreEv s ev).log, y.1 = id → y ∈ s.log) := by
  cases ev with
  | set t =>
    refine ⟨hsubs, hlt, fun y hy hid => ?_⟩
    rcases writableSet_log_mem _ _ y hy with h | h
    · exact h
    · exact absurd hid (hsubs _ h)
  | update f =>
    refine ⟨hsubs, hlt, fun y hy hid => ?_⟩
    rcases writableSet_log_mem _ _ y hy with h | h
    · exact h
    · exact absurd hid (hsubs _ h)
  | toggle =>
    refine ⟨hsubs, hlt, fun y hy hid => ?_⟩
    rcases writableSet_log_mem _ _ y hy with h | h
    · exact h
    · exact absurd hid (hsubs _ h)
  | subscribe =>
    refine ⟨?_, ?_, ?_⟩
    · intro i hi
      simp [applyStoreEv, writableSubscribe] at hi
      rcases hi with hi | rfl
      · exact hsubs i hi
      · omega
    · simp [applyStoreEv, writableSubscribe]
      omega
    · intro y hy hid
      simp [applyStoreEv, writableSubscribe] at hy
      rcases hy with hy | rfl
      · exact hy
      · simp at hid
        omega
  | unsubscribe k =>
    refine ⟨?_, hlt, fun y hy _ => hy⟩
    intro i hi
    simp [applyStoreEv, writableUnsubscribe, List.mem_filter] at hi
    exact hsubs i hi.1

lemma post_unsub_invariant (id : Nat) :
    ∀ (evs : List StoreEv) (s : StoreState),
      (∀ i ∈ s.subs, i ≠ id) → id < s.nextId →
      (∀ i ∈ (applyStoreEvs s evs).subs, i ≠ id)
      ∧ id < (applyStoreEvs s evs).nextId
      ∧ (∀ y ∈ (applyStoreEvs s evs).log, y.1 = id → y ∈ s.log) := by
  intro evs
  induction evs with
  | nil => exact fun s h1 h2 => ⟨h1, h2, fun y hy _ => hy⟩
  | cons ev rest ih =>
    intro s h1 h2
    obtain ⟨g1, g2, g3⟩ := applyStoreEv_no_id s ev id h1 h2
    obtain ⟨k1, k2, k3⟩ := ih (applyStoreEv s ev) g1 g2
    exact ⟨k1, k2, fun y hy hid => g3 y (k3 y hy hid) hid⟩

lemma applyThemeOp_subs (s : StoreState) (op : ThemeOp) :
    (applyThemeOp s op).subs = s.subs := by
  cases op <;> rfl

lemma applyThemeOps_subs (s : StoreState) (ops : List ThemeOp) :
    (applyThemeOps s ops).subs = s.subs := by
  induction ops generalizing s with
  | nil => rfl
  | cons op rest ih => exact (ih (applyThemeOp s op)).trans (applyThemeOp_subs s op)

lemma applyThemeOp_notifies (s : StoreState) (op : ThemeOp) (j : Nat) (hj : j ∈ s.subs) :
    (j, opTheme s op) ∈ (applyThemeOp s op).log := by
  cases op <;>
    simp [applyThemeOp, ThemeStore.set, ThemeStore.update, ThemeStore.toggle,
      writableSet, opTheme] <;>
    tauto

/-- Claim C7: `subscribe` immediately appends exactly one invocation of the
fresh subscriber, carrying the current theme at subscription time, after
all earlier invocations; once `unsubscribe` has run, over any further
event sequence every logged invocation of that subscriber id predates the
unsubscribe (it is never invoked again); any other still-registered
subscriber keeps being notified of every later change with the value that
change applies; and a registered subscriber receives exactly one new
invocation per `set` call. -/
theorem subscribe_contract (s : StoreState) (id j : Nat) (evs : List StoreEv)
    (ops : List ThemeOp) (op : ThemeOp) (v : Theme) :
    ((writableSubscribe s).2.log = s.log ++ [((writableSubscribe s).1, s.current)])
    ∧ (id < s.nextId →
        ∀ x ∈ (applyStoreEvs (writableUnsubscribe s id) evs).log, x.1 = id → x ∈ s.log)
    ∧ (j ∈ s.subs → j ≠ id →
        (j, opTheme (applyThemeOps (writableUnsubscribe s id) ops) op)
          ∈ (applyThemeOp (applyThemeOps (writableUnsubscribe s id) ops) op).log)
    ∧ (s.subs.Nodup → j ∈ s.subs →
        ((ThemeStore.set s v).log).count (j, v) = s.log.count (j, v) + 1) := by
  refine ⟨rfl, ?_, ?_, ?_⟩
  · intro hlt
    have hsubs : ∀ i ∈ (writableUnsubscribe s id).subs, i ≠ id := by
      intro i hi
      simp [writableUnsubscribe, List.mem_filter] at hi
      exact hi.2
    exact (post_unsub_invariant id evs (writableUnsubscribe s id) hsubs hlt).2.2
  · intro hj hne
    have hjU : j ∈ (applyThemeOps (writableUnsubscribe s id) ops).subs := by
      rw [applyThemeOps_subs]
      simp [writableUnsubscribe, List.mem_filter]
      exact ⟨hj, hne⟩
    exact applyThemeOp_notifies _ op j hjU
  · intro hnodup hj
    have hmap : ∀ l : List Nat, (l.map (fun i => (i, v))).count (j, v) = l.count j := by
      intro l
      induction l with
      | nil => rfl
      | cons a l ih => simp [List.map_cons, List.count_cons, ih, Prod.ext_iff]
    simp [ThemeStore.set, writableSet, List.count_append, hmap,
      List.count_eq_one_of_mem hnodup hj]

theorem subscribe_contract_witness :
    ((1, opTheme
        (applyThemeOps (writableUnsubscribe (StoreState.mk [] Theme.LIGHT [0, 1] 2 []) 0) [])
        (ThemeOp.set Theme.DARK))
      ∈ (applyThemeOp
          (applyThemeOps (writableUnsubscribe (StoreState.mk [] Theme.LIGHT [0, 1] 2 []) 0) [])
          (ThemeOp.set Theme.DARK)).log)
    ∧ ((ThemeStore.set (StoreState.mk [] Theme.LIGHT [0, 1] 2 []) Theme.DARK).log).count
          (1, Theme.DARK) =
        ((StoreState.mk [] Theme.LIGHT [0, 1] 2 []).log).count (1, Theme.DARK) + 1 :=
  ⟨(subscribe_contract (StoreState.mk [] Theme.LIGHT [0, 1] 2 []) 0 1 [] []
      (ThemeOp.set Theme.DARK) Theme.DARK).2.2.1 (by decide) (by decide),
   (subscribe_contract (StoreState.mk [] Theme.LIGHT [0, 1] 2 []) 0 1 [] []
      (ThemeOp.set Theme.DARK) Theme.DARK).2.2.2 (by decide) (by decide)⟩

/-- A possible argument of `classNames`: the TS parameter type
`string | false | null | undefined` (the literal `false` is `fls`). -/
inductive ClassArg where
  | str (s : String)
  | fls
  | null
  | undefined
deriving DecidableEq, Repr

/-- JS truthiness as tested by `Array.prototype.filter(Boolean)`: the
literal `false`, `null`, `undefined` and the empty string are falsy; every
other string is truthy. -/
def jsTruthy : ClassArg → Bool
  | .str s => !(s == "")
  | .fls => false
  | .null => false
  | .undefined => false

/-- Element conversion performed by `Array.prototype.join`: strings stay
themselves, `null` and `undefined` contribute nothing, the literal `false`
becomes the word false (it is filtered out before joining anyway). -/
def jsJoinElem : ClassArg → String
  | .str s => s
  | .fls => "false"
  | .null => ""
  | .undefined => ""

/-- `classNames` from `class.util.ts`: keep the truthy arguments and join
them with a single space. -/
def classNames (classes : List ClassArg) : String :=
  String.intercalate " " ((classes.filter jsTruthy).map jsJoinElem)

/-- `cx`, the exported alias of `classNames`. -/
def cx : List ClassArg → String := classNames

/-- Modelled from the spec words of the claim: keep an argument exactly
when it is a nonempty string, as that string. -/
def truthyString : ClassArg → Option String
  | .str s => if s = "" then none else some s
  | _ => none

lemma filter_truthy_eq_filterMap (l : List ClassArg) :
    (l.filter jsTruthy).map jsJoinElem = l.filterMap truthyString := by
  induction l with
  | nil => rfl
  | cons c l ih =>
    cases c with
    | str s =>
      by_cases h : s = "" <;>
        simp [List.filter_cons, List.filterMap_cons, jsTruthy, jsJoinElem, truthyString, h, ih]
    | fls => simp [List.filter_cons, List.filterMap_cons, jsTruthy, truthyString, ih]
    | null => simp [List.filter_cons, List.filterMap_cons, jsTruthy, truthyString, ih]
    | undefined => simp [List.filter_cons, List.filterMap_cons, jsTruthy, truthyString, ih]

/-- Claim C8: `classNames` (and its alias `cx`) returns exactly the
truthy arguments — the nonempty strings — joined by a single space in
their original order; `false`, `null`, `undefined` and empty-string
arguments are dropped without leaving a separator, and a list with no
truthy argument yields the empty string. -/
theorem classNames_spec (classes : List ClassArg) :
    classNames classes = String.intercalate " " (classes.filterMap truthyString)
    ∧ cx classes = classNames classes
    ∧ ((∀ c ∈ classes, jsTruthy c = false) → classNames classes = "") := by
  refine ⟨by rw [classNames, filter_truthy_eq_filterMap], rfl, ?_⟩
  intro hall
  have hnil : classes.filter jsTruthy = [] := by
    simp [List.filter_eq_nil_iff]
    intro c hc
    simp [hall c hc]
  rw [classNames, hnil]
  rfl

theorem classNames_spec_witness :
    classNames [ClassArg.fls, ClassArg.null, ClassArg.undefined, ClassArg.str ""] = "" :=
  (classNames_spec [ClassArg.fls, ClassArg.null, ClassArg.undefined, ClassArg.str ""]).2.2
    (by decide)

/-- A JS number abstracted to what the guards can observe: either NaN or a
non-NaN numeric value (stand-in payload; its magnitude is irrelevant). -/
inductive JSNumber where
  | nan
  | notNan (x : Int)
deriving DecidableEq, Repr

/-- A JS runtime value, abstracted to the observations made by the type
guards: its `typeof` tag, whether it is an array, whether it is `null`,
and NaN-ness for numbers. Object and array contents are irrelevant to the
guards and are not modelled. -/
inductive JSValue where
  | num (n : JSNumber)
  | str (s : String)
  | boolean (b : Bool)
  | null
  | undefined
  | func
  | object
  | array
deriving DecidableEq, Repr

/-- The JS `typeof` operator (note `typeof null` and `typeof []` are both
"object"). -/
def jsTypeof : JSValue → String
  | .num _ => "number"
  | .str _ => "string"
  | .boolean _ => "boolean"
  | .null => "object"
  | .undefined => "undefined"
  | .func => "function"
  | .object => "object"
  | .array => "object"

/-- `Number.isNaN`: true exactly on the NaN number. -/
def numberIsNaN : JSValue → Bool
  | .num .nan => true
  | _ => false

/-- `Array.isArray`: true exactly on arrays. -/
def arrayIsArray : JSValue → Bool
  | .array => true
  | _ => false

/-- `isNumber` from the type-guard module:
`typeof value === "number" && !Number.isNaN(value)`. -/
def isNumber (value : JSValue) : Bool :=
  jsTypeof value == "number" && !(numberIsNaN value)

/-- `isObject` from the type-guard module:
`typeof value === "object" && !Array.isArray(value) && value !== null`. -/
def isObject (value : JSValue) : Bool :=
  jsTypeof value == "object" && !(arrayIsArray value) && !(value == JSValue.null)

/-- `isArray` from the type-guard module: `Array.isArray(value)`. -/
def isArray (value : JSValue) : Bool :=
  arrayIsArray value

/-- Claim C9: `isNumber` holds exactly on values of runtime type number
that are not NaN; in particular it rejects NaN although NaN is a number at
the type level. -/
theorem isNumber_spec (v : JSValue) :
    (isNumber v = true ↔ jsTypeof v = "number" ∧ v ≠ JSValue.num JSNumber.nan)
    ∧ isNumber (JSValue.num JSNumber.nan) = false := by
  refine ⟨?_, by decide⟩
  cases v with
  | num n => cases n <;> simp [isNumber, jsTypeof, numberIsNaN]
  | str s => simp [isNumber, jsTypeof, numberIsNaN]
  | boolean b => simp [isNumber, jsTypeof, numberIsNaN]
  | null => simp [isNumber, jsTypeof, numberIsNaN]
  | undefined => simp [isNumber, jsTypeof, numberIsNaN]
  | func => simp [isNumber, jsTypeof, numberIsNaN]
  | object => simp [isNumber, jsTypeof, numberIsNaN]
  | array => simp [isNumber, jsTypeof, numberIsNaN]

/-- Claim C10: `isObject` and `isArray` are mutually exclusive (never both
true on the same value) and `isObject` rejects `null`. -/
theorem isObject_isArray_exclusive (v : JSValue) :
    (isObject v && isArray v) = false ∧ isObject JSValue.null = false := by
  refine ⟨?_, by decide⟩
  cases v <;> simp [isObject, isArray, jsTypeof, arrayIsArray]
